import Mathlib

/-!
Shallow embedding of the tensor-state collapse engine of
`src/pages/3_QUANTUM_COLLAPSE.py` (Quantum Collapse Simulator page).

Basis-label bits are modelled as `Bool` (`false` for the character "0",
`true` for "1").  Amplitudes, which the page holds as Python floats, are
modelled as exact values of a linear ordered field `K`; every theorem
instantiates `K := ℝ`.  `np.sqrt` is an external library function and is
passed as an explicit parameter, instantiated with `Real.sqrt`.
-/

namespace QuantumCollapse

/-- `np.isclose a b` with relative tolerance `rtol` and absolute tolerance
`atol`: numpy's definition is `|a - b| ≤ atol + rtol * |b|`. -/
def npIsClose {K : Type} [LinearOrderedField K] (rtol atol a b : K) : Bool :=
  decide (|a - b| ≤ atol + rtol * |b|)

/-- The validation failure of the input section:
`st.error(f"Qubit {i}: |α|² + |β|² must equal 1. Check your inputs!")` followed
by `st.stop()`.  The message carries the qubit index (and nothing else). -/
inductive QubitError where
  | NormalizationError (index : Nat)
  deriving DecidableEq

/-- The qubit-input validation: qubit `i` with amplitudes `(α, β)` passes iff
`np.isclose(alpha**2 + beta**2, 1.0, atol=1e-6)`; `rtol` keeps its numpy
default `1e-5`. -/
def validate_qubit {K : Type} [LinearOrderedField K] (i : Nat) (q : K × K) :
    Except QubitError (K × K) :=
  if npIsClose (1 / 100000) (1 / 1000000) (q.1 ^ 2 + q.2 ^ 2) 1 then .ok q
  else .error (.NormalizationError i)

/-- `itertools.product(["0","1"], repeat=n)`: all length-`n` bit strings, the
first position varying slowest, i.e. lexicographic order with "0" before "1". -/
def bitStrings : Nat → List (List Bool)
  | 0 => [[]]
  | n + 1 => [false, true].flatMap fun b => (bitStrings n).map fun s => b :: s

/-- The coefficient the tensor-product loop accumulates for one basis tuple:
`coeff *= alpha if b == "0" else beta` over `zip(qubit_values, basis)`,
starting from `1.0`. -/
def basisCoeff {K : Type} [LinearOrderedField K] (qubits : List (K × K))
    (basis : List Bool) : K :=
  ((qubits.zip basis).map fun p => if p.2 then p.1.2 else p.1.1).prod

/-- `build_joint_state`: the tensor-product loop producing the parallel lists
`tensor_labels` / `tensor_coeffs`, here as one list of (label, coefficient)
pairs in the loop's order. -/
def build_joint_state {K : Type} [LinearOrderedField K] (qubits : List (K × K)) :
    List (List Bool × K) :=
  (bitStrings qubits.length).map fun basis => (basis, basisCoeff qubits basis)

/-- `measured_indices = [i for i, val in enumerate(measure_qubits) if val is not None]`. -/
def measuredIndices (measure : List (Option Bool)) : List Nat :=
  (measure.enum.filter fun p => p.2.isSome).map Prod.fst

/-- The match check of the filter loop: label `lbl` agrees with
`measure_qubits[i]` at every measured index `i` (a mismatch at any such `i`
sets `match = False`). -/
def labelMatches (measure : List (Option Bool)) (lbl : List Bool) : Bool :=
  (measuredIndices measure).all fun i => lbl.get? i == (measure.get? i).join

/-- The filter loop building `partial_coeffs` / `partial_labels`: the pairs of
the joint state whose label matches the measurement at every measured index. -/
def partial_pairs {K : Type} (state : List (List Bool × K))
    (measure : List (Option Bool)) : List (List Bool × K) :=
  state.filter fun p => labelMatches measure p.1

/-- `norm_sq = sum([abs(c)**2 for c in partial_coeffs])`. -/
def norm_sq {K : Type} [LinearOrderedField K] (pairs : List (List Bool × K)) : K :=
  (pairs.map fun p => |p.2| ^ 2).sum

/-- The outputs of the collapse section: the normalized (label, coefficient)
pairs, the pre-normalization `norm_sq`, the factor `np.sqrt(1/norm_sq)`, and
whether the `st.warning` about non-normalization fired. -/
structure CollapsedState (K : Type) where
  pairs : List (List Bool × K)
  norm_sq : K
  norm_factor : K
  warned : Bool

/-- `EmptyCollapseError` is the error the page's spec names for an empty
filtered set; the page itself never produces it.  `ZeroDivisionError` models
the uncaught Python exception raised by `1/norm_sq` when `norm_sq == 0`. -/
inductive CollapseError where
  | EmptyCollapseError
  | ZeroDivisionError
  deriving DecidableEq

/-- The body of the `if measured_indices:` branch: filter the joint state,
compute `norm_sq`, warn when `not np.isclose(norm_sq, 1.0)` (numpy defaults
`rtol=1e-5`, `atol=1e-8`), and rescale every kept coefficient by
`norm_factor = np.sqrt(1/norm_sq)`.  Python raises an uncaught
`ZeroDivisionError` at `1/norm_sq` exactly when `norm_sq == 0`. -/
def collapse {K : Type} [LinearOrderedField K] (sqrt : K → K)
    (state : List (List Bool × K)) (measure : List (Option Bool)) :
    Except CollapseError (CollapsedState K) :=
  let ps := partial_pairs state measure
  let ns := norm_sq ps
  if ns = 0 then .error .ZeroDivisionError
  else
    let nf := sqrt (1 / ns)
    .ok { pairs := ps.map fun p => (p.1, p.2 * nf),
          norm_sq := ns,
          norm_factor := nf,
          warned := !npIsClose (1 / 100000) (1 / 100000000) ns 1 }

/-- The page-level collapse section: `if measured_indices: ... else:
st.info("Select at least one qubit outcome to perform collapse.")`.  With no
qubit measured, nothing is computed (`none`). -/
def runCollapse {K : Type} [LinearOrderedField K] (sqrt : K → K)
    (state : List (List Bool × K)) (measure : List (Option Bool)) :
    Option (Except CollapseError (CollapsedState K)) :=
  if measuredIndices measure = [] then none
  else some (collapse sqrt state measure)

/-- The probability table rendered as the bar chart:
`abs(c)**2` for each collapsed label. -/
def measurement_probabilities {K : Type} [LinearOrderedField K]
    (cs : CollapsedState K) : List (List Bool × K) :=
  cs.pairs.map fun p => (p.1, |p.2| ^ 2)

/-- The coefficient formula as the specification words it: for a bit string
`basis`, the product over qubit position `i` of `αᵢ` if bit `i` is "0" else
`βᵢ` (stated with positional indexing, to be compared with the source's
zip-accumulator `basisCoeff`). -/
def specCoeff {K : Type} [LinearOrderedField K] (qubits : List (K × K))
    (basis : List Bool) : K :=
  ∏ i in Finset.range qubits.length,
    (if basis.getD i false then (qubits.getD i (0, 0)).2 else (qubits.getD i (0, 0)).1)

-- Sanity examples (bit strings are computable end to end).
example : bitStrings 2 = [[false, false], [false, true], [true, false], [true, true]] := rfl
example : measuredIndices [none, some false, some true] = [1, 2] := rfl
example : labelMatches [none, some false] [true, false] = true := rfl
example : labelMatches [none, some false] [true, true] = false := rfl

/-! ## Supporting lemmas -/

theorem basisCoeff_nil {K : Type} [LinearOrderedField K] (bs : List Bool) :
    basisCoeff ([] : List (K × K)) bs = 1 := by
  simp [basisCoeff]

theorem basisCoeff_cons {K : Type} [LinearOrderedField K] (q : K × K)
    (qs : List (K × K)) (b : Bool) (bs : List Bool) :
    basisCoeff (q :: qs) (b :: bs) = (if b then q.2 else q.1) * basisCoeff qs bs := by
  simp [basisCoeff]

theorem bitStrings_succ (n : Nat) :
    bitStrings (n + 1)
      = ((bitStrings n).map (false :: ·)) ++ ((bitStrings n).map (true :: ·)) := by
  simp [bitStrings]

theorem length_bitStrings (n : Nat) : (bitStrings n).length = 2 ^ n := by
  induction n with
  | zero => rfl
  | succ n ih =>
      rw [bitStrings_succ, List.length_append, List.length_map, List.length_map, ih,
        pow_succ]
      omega

theorem mem_bitStrings (n : Nat) (s : List Bool) : s ∈ bitStrings n ↔ s.length = n := by
  induction n generalizing s with
  | zero => simp [bitStrings, List.length_eq_zero]
  | succ n ih =>
      rw [bitStrings_succ]
      simp only [List.mem_append, List.mem_map]
      constructor
      · rintro (⟨t, ht, rfl⟩ | ⟨t, ht, rfl⟩) <;> simp [(ih t).mp ht]
      · intro hs
        cases s with
        | nil => simp at hs
        | cons b t =>
            have ht : t.length = n := by simpa using hs
            cases b
            · exact Or.inl ⟨t, (ih t).mpr ht, rfl⟩
            · exact Or.inr ⟨t, (ih t).mpr ht, rfl⟩

theorem bitStrings_sorted (n : Nat) :
    List.Pairwise (List.Lex (· < ·)) (bitStrings n) := by
  induction n with
  | zero => simp [bitStrings]
  | succ n ih =>
      rw [bitStrings_succ, List.pairwise_append]
      refine ⟨List.Pairwise.map _ (fun a b h => List.Lex.cons h) ih,
              List.Pairwise.map _ (fun a b h => List.Lex.cons h) ih, ?_⟩
      intro x hx y hy
      obtain ⟨s, _, rfl⟩ := List.mem_map.mp hx
      obtain ⟨t, _, rfl⟩ := List.mem_map.mp hy
      exact List.Lex.rel (by decide)

theorem sum_sq_basisCoeff {K : Type} [LinearOrderedField K] (qs : List (K × K)) :
    ((bitStrings qs.length).map fun bs => basisCoeff qs bs ^ 2).sum
      = (qs.map fun q => q.1 ^ 2 + q.2 ^ 2).prod := by
  induction qs with
  | nil => simp [bitStrings, basisCoeff]
  | cons q qs ih =>
      rw [List.length_cons, bitStrings_succ, List.map_append, List.sum_append,
        List.map_map, List.map_map]
      simp only [Function.comp_def, basisCoeff_cons, Bool.false_eq_true, if_true,
        if_false, mul_pow, List.sum_map_mul_left, ih, List.map_cons, List.prod_cons]
      ring

theorem norm_sq_build {K : Type} [LinearOrderedField K] (qs : List (K × K)) :
    norm_sq (build_joint_state qs) = (qs.map fun q => q.1 ^ 2 + q.2 ^ 2).prod := by
  rw [← sum_sq_basisCoeff]
  simp [norm_sq, build_joint_state, List.map_map, Function.comp_def, sq_abs]

theorem specCoeff_eq_basisCoeff {K : Type} [LinearOrderedField K] (qs : List (K × K))
    (bs : List Bool) (h : bs.length = qs.length) : specCoeff qs bs = basisCoeff qs bs := by
  induction qs generalizing bs with
  | nil => simp [specCoeff, basisCoeff]
  | cons q qs ih =>
      cases bs with
      | nil => simp at h
      | cons b t =>
          have ht : t.length = qs.length := by simpa using h
          simp only [specCoeff, List.length_cons]
          rw [Finset.prod_range_succ']
          simp only [List.getD_cons_succ, List.getD_cons_zero]
          rw [show (∏ i in Finset.range qs.length,
                if t.getD i false then (qs.getD i (0, 0)).2 else (qs.getD i (0, 0)).1)
              = specCoeff qs t from rfl,
            ih t ht, basisCoeff_cons, mul_comm]

theorem norm_sq_nonneg {K : Type} [LinearOrderedField K]
    (pairs : List (List Bool × K)) : 0 ≤ norm_sq pairs := by
  refine List.sum_nonneg ?_
  intro x hx
  obtain ⟨p, _, rfl⟩ := List.mem_map.mp hx
  positivity

theorem collapse_eq_of_norm_sq_zero {K : Type} [LinearOrderedField K] (sqrt : K → K)
    (state : List (List Bool × K)) (measure : List (Option Bool))
    (h : norm_sq (partial_pairs state measure) = 0) :
    collapse sqrt state measure = .error .ZeroDivisionError := by
  simp [collapse, h]

theorem collapse_eq_of_norm_sq_ne_zero {K : Type} [LinearOrderedField K] (sqrt : K → K)
    (state : List (List Bool × K)) (measure : List (Option Bool))
    (h : norm_sq (partial_pairs state measure) ≠ 0) :
    collapse sqrt state measure
      = .ok { pairs := (partial_pairs state measure).map fun p =>
                (p.1, p.2 * sqrt (1 / norm_sq (partial_pairs state measure))),
              norm_sq := norm_sq (partial_pairs state measure),
              norm_factor := sqrt (1 / norm_sq (partial_pairs state measure)),
              warned := !npIsClose (1 / 100000) (1 / 100000000)
                  (norm_sq (partial_pairs state measure)) 1 } := by
  simp [collapse, h]

/-! ## Concrete evaluations shared by several claims -/

theorem joint_001_eval :
    build_joint_state [((1 : ℝ), 0), (1, 0), (0, 1)]
      = [([false, false, false], 0), ([false, false, true], 1),
         ([false, true, false], 0), ([false, true, true], 0),
         ([true, false, false], 0), ([true, false, true], 0),
         ([true, true, false], 0), ([true, true, true], 0)] := by
  have hb : bitStrings 3
      = [[false, false, false], [false, false, true], [false, true, false],
         [false, true, true], [true, false, false], [true, false, true],
         [true, true, false], [true, true, true]] := rfl
  simp only [build_joint_state, List.length_cons, List.length_nil, hb,
    List.map_cons, List.map_nil]
  norm_num [basisCoeff]

theorem partial_001_q2zero_eval :
    partial_pairs (build_joint_state [((1 : ℝ), 0), (1, 0), (0, 1)])
        [none, none, some false]
      = [([false, false, false], 0), ([false, true, false], 0),
         ([true, false, false], 0), ([true, true, false], 0)] := by
  rw [joint_001_eval]; rfl

theorem norm_sq_partial_001 :
    norm_sq (partial_pairs (build_joint_state [((1 : ℝ), 0), (1, 0), (0, 1)])
        [none, none, some false]) = 0 := by
  rw [partial_001_q2zero_eval]; simp [norm_sq]

theorem collapse_unit_filtered (state : List (List Bool × ℝ))
    (measure : List (Option Bool)) (l : List Bool)
    (hp : partial_pairs state measure = [(l, 1)]) :
    collapse Real.sqrt state measure
      = .ok { pairs := [(l, 1)], norm_sq := 1, norm_factor := 1, warned := false } := by
  have hns : norm_sq (partial_pairs state measure) = 1 := by
    rw [hp]; simp [norm_sq]
  rw [collapse_eq_of_norm_sq_ne_zero Real.sqrt state measure (by rw [hns]; norm_num),
    hns, hp]
  have hw : npIsClose (1 / 100000) (1 / 100000000) (1 : ℝ) 1 = true := by
    simp only [npIsClose, decide_eq_true_eq]
    norm_num
  norm_num [hw, Real.sqrt_one]

/-! ## Claims -/

/-- C1 (amended): the page has no `EmptyCollapseError`.  Whenever the filtered
squared-magnitude sum `norm_sq` is zero — in particular when the filtered set
is empty — the collapse section fails with the uncaught `ZeroDivisionError`
raised by `1/norm_sq`, and so never returns a CollapsedState (with zero entries
or otherwise). -/
theorem collapse_zero_norm_raises_zero_division
    (state : List (List Bool × ℝ)) (measure : List (Option Bool))
    (h : norm_sq (partial_pairs state measure) = 0) :
    collapse Real.sqrt state measure = .error .ZeroDivisionError :=
  collapse_eq_of_norm_sq_zero Real.sqrt state measure h

/-- C1 witness: for the 3-qubit input [(1,0),(1,0),(0,1)], measuring qubit 2 =
"0" hits the zero-norm case and raises `ZeroDivisionError`. -/
theorem collapse_zero_norm_raises_zero_division_witness :
    collapse Real.sqrt (build_joint_state [((1 : ℝ), 0), (1, 0), (0, 1)])
        [none, none, some false] = .error .ZeroDivisionError :=
  collapse_zero_norm_raises_zero_division _ _ norm_sq_partial_001

/-- C1 counterexample: at the claim's own concrete input — qubits
[(1,0),(1,0),(0,1)], measuring qubit 2 = "0" — the filtered (label, coefficient)
set is NOT empty (it has 4 entries, all with coefficient 0), and collapse does
not yield `EmptyCollapseError`: the code raises `ZeroDivisionError` at
`1/norm_sq` instead. -/
theorem collapse_qubit2_zero_not_empty_collapse_error :
    (partial_pairs (build_joint_state [((1 : ℝ), 0), (1, 0), (0, 1)])
        [none, none, some false]).length = 4 ∧
    collapse Real.sqrt (build_joint_state [((1 : ℝ), 0), (1, 0), (0, 1)])
        [none, none, some false] ≠ .error .EmptyCollapseError := by
  constructor
  · rw [partial_001_q2zero_eval]; rfl
  · rw [collapse_eq_of_norm_sq_zero Real.sqrt _ _ norm_sq_partial_001]
    intro hc
    exact absurd (Except.error.inj hc) (by decide)

/-- C2 (amended): with an empty MeasurementSpec (no qubit index fixed) the page
performs no collapse at all: the `if measured_indices:` guard takes the `else`
branch, which only shows an informational prompt, so no CollapsedState and no
rescale factor are produced. -/
theorem runCollapse_empty_spec_no_output
    (state : List (List Bool × ℝ)) (measure : List (Option Bool))
    (h : measuredIndices measure = []) :
    runCollapse Real.sqrt state measure = none := by
  simp [runCollapse, h]

/-- C2 witness: a 2-qubit joint state with both qubits unmeasured produces no
collapse output. -/
theorem runCollapse_empty_spec_no_output_witness :
    runCollapse Real.sqrt (build_joint_state [((1 : ℝ), 0), (1, 0)]) [none, none]
      = none :=
  runCollapse_empty_spec_no_output _ _ rfl

/-- C2 counterexample: for the concrete joint state of qubits [(1,0),(0,1)] and
the empty spec, the claim asserts collapse returns the full JointState with
rescale factor 1; the code returns nothing at all (`none`, the info prompt), in
particular not the full JointState. -/
theorem runCollapse_empty_spec_returns_nothing_concrete :
    runCollapse Real.sqrt (build_joint_state [((1 : ℝ), 0), (0, 1)]) [none, none]
        = none ∧
    (none : Option (Except CollapseError (CollapsedState ℝ)))
      ≠ some (.ok { pairs := build_joint_state [((1 : ℝ), 0), (0, 1)],
                    norm_sq := 1, norm_factor := 1, warned := false }) := by
  exact ⟨rfl, by simp⟩

/-- C10 (amended): when every coefficient in the filtered set is zero (e.g. a
measured qubit whose amplitude for the observed bit is exactly 0), `norm_sq` is
0 and the evaluation of `np.sqrt(1/norm_sq)` raises an uncaught
`ZeroDivisionError` at the division `1/0`: no rescaled coefficients and no
probability distribution are ever produced (the claim's prediction of
non-finite values never happens — the division raises before `np.sqrt` runs). -/
theorem collapse_all_zero_filtered_zero_division
    (state : List (List Bool × ℝ)) (measure : List (Option Bool))
    (h : ∀ p ∈ partial_pairs state measure, p.2 = (0 : ℝ)) :
    collapse Real.sqrt state measure = .error .ZeroDivisionError := by
  apply collapse_eq_of_norm_sq_zero
  refine List.sum_eq_zero ?_
  intro x hx
  obtain ⟨p, hp, rfl⟩ := List.mem_map.mp hx
  rw [h p hp]
  simp

/-- C10 witness: a filtered set whose only coefficient is exactly 0. -/
theorem collapse_all_zero_filtered_zero_division_witness :
    collapse Real.sqrt [([false], (0 : ℝ))] [some false]
      = .error .ZeroDivisionError :=
  collapse_all_zero_filtered_zero_division _ _ (by
    rw [show partial_pairs [([false], (0 : ℝ))] [some false]
        = [([false], (0 : ℝ))] from rfl]
    intro p hp
    simp only [List.mem_singleton] at hp
    rw [hp])

/-- C10 counterexample: for qubits [(1,0),(0,1)] measuring qubit 0 = "1", every
filtered coefficient is zero; the claim says the code produces non-finite
rescaled coefficients and a non-finite probability distribution "rather than
any error result", but the code produces an error result (the uncaught
`ZeroDivisionError` from `1/norm_sq`) and no coefficients at all. -/
theorem collapse_all_zero_filtered_error_not_nonfinite :
    collapse Real.sqrt (build_joint_state [((1 : ℝ), 0), (0, 1)]) [some true, none]
      = .error .ZeroDivisionError := by
  apply collapse_eq_of_norm_sq_zero
  have hJ : build_joint_state [((1 : ℝ), 0), (0, 1)]
      = [([false, false], 0), ([false, true], 1), ([true, false], 0),
         ([true, true], 0)] := by
    have hb : bitStrings 2
        = [[false, false], [false, true], [true, false], [true, true]] := rfl
    simp only [build_joint_state, List.length_cons, List.length_nil, hb,
      List.map_cons, List.map_nil]
    norm_num [basisCoeff]
  rw [hJ, show partial_pairs
      [([false, false], (0 : ℝ)), ([false, true], 1), ([true, false], 0),
       ([true, true], 0)] [some true, none]
      = [([true, false], (0 : ℝ)), ([true, true], 0)] from rfl]
  simp [norm_sq]

/-- C3 (amended): `validate_qubit` accepts (α, β) iff α² + β² is within
`np.isclose`'s tolerance of 1 — which, with `atol = 1e-6` and the numpy
default `rtol = 1e-5`, is `|α² + β² − 1| ≤ 1e-6 + 1e-5·|1|` (about 1.1e-5,
not the claimed 1e-6); outside it, it fails with `NormalizationError`, whose
message carries the qubit index (the computed sum is not displayed). -/
theorem validate_qubit_tolerance_iff (i : Nat) (q : ℝ × ℝ) :
    (validate_qubit i q = .ok q
      ↔ |q.1 ^ 2 + q.2 ^ 2 - 1| ≤ 1 / 1000000 + 1 / 100000) ∧
    (validate_qubit i q = .error (.NormalizationError i)
      ↔ ¬ |q.1 ^ 2 + q.2 ^ 2 - 1| ≤ 1 / 1000000 + 1 / 100000) := by
  unfold validate_qubit npIsClose
  simp only [decide_eq_true_eq, abs_one, mul_one]
  by_cases h : |q.1 ^ 2 + q.2 ^ 2 - 1| ≤ 1 / 1000000 + 1 / 100000
  · simp [h]
  · simp [h]

/-- C3 counterexample: (α, β) = (1, 1/500) has α² + β² = 1 + 4·10⁻⁶, outside
the claimed 1e-6 tolerance, yet `validate_qubit` accepts it (numpy's default
relative tolerance 1e-5 dominates the `atol=1e-6` the code passes). -/
theorem validate_qubit_accepts_outside_claimed_tolerance :
    validate_qubit 1 ((1 : ℝ), 1 / 500) = .ok (1, 1 / 500) ∧
      ¬ |((1 : ℝ) ^ 2 + (1 / 500) ^ 2) - 1| ≤ 1 / 1000000 := by
  have habs : |((1 : ℝ) ^ 2 + (1 / 500) ^ 2) - 1| = 1 / 250000 := by
    rw [abs_of_nonneg (by norm_num)]
    norm_num
  constructor
  · unfold validate_qubit npIsClose
    rw [if_pos]
    rw [decide_eq_true_eq]
    rw [show ((1 : ℝ), 1 / 500).1 ^ 2 + ((1 : ℝ), 1 / 500).2 ^ 2
        = (1 : ℝ) ^ 2 + (1 / 500) ^ 2 from rfl, habs]
    rw [abs_one]
    norm_num
  · rw [habs]
    norm_num

/-- C4: for N ∈ {2,3} and N exactly normalized qubit pairs,
`build_joint_state` returns exactly 2^N (label, coefficient) entries, and the
sum of the squared magnitudes of the coefficients is 1 (so certainly within
1e-6 of 1). -/
theorem build_joint_state_length_and_norm (qs : List (ℝ × ℝ))
    (_hN : qs.length = 2 ∨ qs.length = 3)
    (hq : ∀ q ∈ qs, q.1 ^ 2 + q.2 ^ 2 = 1) :
    (build_joint_state qs).length = 2 ^ qs.length ∧
      |norm_sq (build_joint_state qs) - 1| ≤ 1 / 1000000 := by
  constructor
  · rw [build_joint_state, List.length_map, length_bitStrings]
  · rw [norm_sq_build, List.prod_eq_one ?_]
    · norm_num
    · intro x hx
      obtain ⟨q, hqm, rfl⟩ := List.mem_map.mp hx
      exact hq q hqm

/-- C4 witness: the 2-qubit input [(1,0),(0,1)]. -/
theorem build_joint_state_length_and_norm_witness :
    (build_joint_state [((1 : ℝ), 0), (0, 1)]).length = 2 ^ 2 ∧
      |norm_sq (build_joint_state [((1 : ℝ), 0), (0, 1)]) - 1| ≤ 1 / 1000000 :=
  build_joint_state_length_and_norm [((1 : ℝ), 0), (0, 1)] (Or.inl rfl) (by
    intro q hq
    simp only [List.mem_cons, List.not_mem_nil, or_false] at hq
    rcases hq with h | h <;> rw [h] <;> norm_num)

/-- C5: for N ∈ {2,3}, the labels of `build_joint_state` are exactly the
repeated Cartesian product of {"0","1"} taken N times — strictly increasing in
lexicographic bit-string order, containing every length-N bit string — and the
coefficient attached to each label equals the spec's positional product
formula (`specCoeff`): the product over qubit position i of αᵢ if bit i is "0"
else βᵢ. -/
theorem build_joint_state_lex_order_and_coeff (qs : List (ℝ × ℝ))
    (_hN : qs.length = 2 ∨ qs.length = 3) :
    (build_joint_state qs).map Prod.fst = bitStrings qs.length ∧
    List.Pairwise (List.Lex (· < ·)) ((build_joint_state qs).map Prod.fst) ∧
    (∀ s : List Bool, s.length = qs.length
      → s ∈ (build_joint_state qs).map Prod.fst) ∧
    ∀ p ∈ build_joint_state qs, p.2 = specCoeff qs p.1 := by
  have hmap : (build_joint_state qs).map Prod.fst = bitStrings qs.length := by
    simp [build_joint_state, List.map_map, Function.comp_def]
  refine ⟨hmap, ?_, ?_, ?_⟩
  · rw [hmap]
    exact bitStrings_sorted _
  · intro s hs
    rw [hmap]
    exact (mem_bitStrings _ s).mpr hs
  · intro p hp
    obtain ⟨bs, hbs, rfl⟩ := List.mem_map.mp hp
    exact (specCoeff_eq_basisCoeff qs bs ((mem_bitStrings _ bs).mp hbs)).symm

/-- C5 witness: the 2-qubit input [(1,0),(0,1)]. -/
theorem build_joint_state_lex_order_and_coeff_witness :
    (build_joint_state [((1 : ℝ), 0), (0, 1)]).map Prod.fst = bitStrings 2 ∧
    List.Pairwise (List.Lex (· < ·))
      ((build_joint_state [((1 : ℝ), 0), (0, 1)]).map Prod.fst) ∧
    (∀ s : List Bool, s.length = 2
      → s ∈ (build_joint_state [((1 : ℝ), 0), (0, 1)]).map Prod.fst) ∧
    ∀ p ∈ build_joint_state [((1 : ℝ), 0), (0, 1)],
      p.2 = specCoeff [((1 : ℝ), 0), (0, 1)] p.1 :=
  build_joint_state_lex_order_and_coeff _ (Or.inl rfl)

/-- C6 (amended): for every filtered set with nonzero squared-magnitude sum
(`norm_sq ≠ 0` — a non-empty filtered set whose coefficients are all zero
instead raises `ZeroDivisionError` and does not proceed) collapse always
proceeds to a CollapsedState — the normalization check is informational only,
never fatal — rescaling every filtered coefficient by √(1/norm_sq); the
warning fires iff `norm_sq` fails `np.isclose(norm_sq, 1.0)` with numpy's
DEFAULT tolerances, i.e. iff ¬(|norm_sq − 1| ≤ 1e-8 + 1e-5·|1|) — not the
claimed 1e-6. -/
theorem collapse_warning_semantics (state : List (List Bool × ℝ))
    (measure : List (Option Bool)) (h : norm_sq (partial_pairs state measure) ≠ 0) :
    collapse Real.sqrt state measure
      = .ok { pairs := (partial_pairs state measure).map fun p =>
                (p.1, p.2 * Real.sqrt (1 / norm_sq (partial_pairs state measure))),
              norm_sq := norm_sq (partial_pairs state measure),
              norm_factor := Real.sqrt (1 / norm_sq (partial_pairs state measure)),
              warned := !npIsClose (1 / 100000) (1 / 100000000)
                  (norm_sq (partial_pairs state measure)) 1 } ∧
    (npIsClose (1 / 100000) (1 / 100000000) (norm_sq (partial_pairs state measure)) 1
        = true
      ↔ |norm_sq (partial_pairs state measure) - 1| ≤ 1 / 100000000 + 1 / 100000) := by
  refine ⟨collapse_eq_of_norm_sq_ne_zero Real.sqrt state measure h, ?_⟩
  simp only [npIsClose, decide_eq_true_eq, abs_one, mul_one]

/-- C6 witness: a state whose filtered set is the single pair ([0], 1). -/
theorem collapse_warning_semantics_witness :
    collapse Real.sqrt [([false], (1 : ℝ))] [some false]
      = .ok { pairs := [([false], 1)], norm_sq := 1, norm_factor := 1,
              warned := false } := by
  have hp : partial_pairs [([false], (1 : ℝ))] [some false]
      = [([false], (1 : ℝ))] := rfl
  have hns : norm_sq (partial_pairs [([false], (1 : ℝ))] [some false]) = 1 := by
    rw [hp]; simp [norm_sq]
  have h := collapse_warning_semantics [([false], (1 : ℝ))] [some false]
    (by rw [hns]; norm_num)
  rw [h.1, hns, hp]
  have hw : npIsClose (1 / 100000) (1 / 100000000) (1 : ℝ) 1 = true := by
    simp only [npIsClose, decide_eq_true_eq]
    norm_num
  norm_num [hw, Real.sqrt_one]

/-- C6 counterexample, refuting the claim at two concrete inputs.  First, a
filtered set with norm_sq = 1.000004800009, which is NOT within 1e-6 of 1 —
the claim says the warning is reported — yet the code issues no warning,
because `np.isclose(norm_sq, 1.0)` uses the default tolerances (rtol 1e-5,
atol 1e-8) and 4.800009e-6 ≤ 1.001e-5.  Second, a NON-empty filtered set
(the single pair ([1], 0), whose norm_sq = 0 is also not within 1e-6 of 1)
where collapse does not proceed at all: it raises `ZeroDivisionError`. -/
theorem collapse_no_warning_within_numpy_default :
    (collapse Real.sqrt
        [([false, false], (3 / 5 : ℝ)), ([false, true], 800003 / 1000000),
         ([true, false], 0), ([true, true], 0)]
        [some false, none]).map (fun r => (r.warned, r.norm_sq))
      = .ok (false, 1000004800009 / 1000000000000) ∧
    ¬ |(1000004800009 / 1000000000000 : ℝ) - 1| ≤ 1 / 1000000 ∧
    (partial_pairs [([true], (0 : ℝ))] [some true] ≠ [] ∧
      collapse Real.sqrt [([true], (0 : ℝ))] [some true]
        = .error .ZeroDivisionError) := by
  have hp : partial_pairs
      [([false, false], (3 / 5 : ℝ)), ([false, true], 800003 / 1000000),
       ([true, false], 0), ([true, true], 0)] [some false, none]
      = [([false, false], (3 / 5 : ℝ)), ([false, true], 800003 / 1000000)] := rfl
  have hns : norm_sq (partial_pairs
      [([false, false], (3 / 5 : ℝ)), ([false, true], 800003 / 1000000),
       ([true, false], 0), ([true, true], 0)] [some false, none])
      = 1000004800009 / 1000000000000 := by
    rw [hp]
    simp only [norm_sq, List.map_cons, List.map_nil, List.sum_cons, List.sum_nil]
    rw [abs_of_nonneg (by norm_num : (0 : ℝ) ≤ 3 / 5),
      abs_of_nonneg (by norm_num : (0 : ℝ) ≤ 800003 / 1000000)]
    norm_num
  refine ⟨?_, ?_, ?_, ?_⟩
  · rw [collapse_eq_of_norm_sq_ne_zero Real.sqrt _ _ (by rw [hns]; norm_num)]
    simp only [Except.map]
    rw [hns]
    have hw : npIsClose (1 / 100000) (1 / 100000000)
        ((1000004800009 : ℝ) / 1000000000000) 1 = true := by
      simp only [npIsClose, decide_eq_true_eq, abs_one, mul_one]
      rw [abs_of_nonneg (by norm_num)]
      norm_num
    rw [hw]
    rfl
  · rw [abs_of_nonneg (by norm_num)]
    norm_num
  · rw [show partial_pairs [([true], (0 : ℝ))] [some true]
        = [([true], (0 : ℝ))] from rfl]
    simp
  · apply collapse_eq_of_norm_sq_zero
    rw [show partial_pairs [([true], (0 : ℝ))] [some true]
        = [([true], (0 : ℝ))] from rfl]
    simp [norm_sq]

/-- C7: for any CollapsedState a successful collapse produces,
`measurement_probabilities` is |coefficient|² per label, and these
probabilities sum to exactly 1 (hence within any tolerance). -/
theorem measurement_probabilities_sq_sum_one (state : List (List Bool × ℝ))
    (measure : List (Option Bool)) (r : CollapsedState ℝ)
    (h : collapse Real.sqrt state measure = .ok r) :
    measurement_probabilities r = r.pairs.map (fun p => (p.1, |p.2| ^ 2)) ∧
    ((measurement_probabilities r).map Prod.snd).sum = 1 := by
  refine ⟨rfl, ?_⟩
  by_cases hz : norm_sq (partial_pairs state measure) = 0
  · rw [collapse_eq_of_norm_sq_zero Real.sqrt state measure hz] at h
    exact absurd h (by simp)
  · rw [collapse_eq_of_norm_sq_ne_zero Real.sqrt state measure hz] at h
    obtain rfl := (Except.ok.inj h).symm
    have hns0 : 0 ≤ norm_sq (partial_pairs state measure) :=
      norm_sq_nonneg (partial_pairs state measure)
    have hsq : Real.sqrt (1 / norm_sq (partial_pairs state measure)) ^ 2
        = 1 / norm_sq (partial_pairs state measure) :=
      Real.sq_sqrt (by positivity)
    simp only [measurement_probabilities, List.map_map, Function.comp_def,
      abs_mul, mul_pow]
    rw [List.sum_map_mul_right]
    rw [show ((partial_pairs state measure).map fun p => |p.2| ^ 2).sum
        = norm_sq (partial_pairs state measure) from rfl]
    rw [sq_abs, hsq]
    field_simp

/-- C7 witness: collapsing [([0],1),([1],0)] on qubit 0 = "0". -/
theorem measurement_probabilities_sq_sum_one_witness :
    measurement_probabilities
        ({ pairs := [([false], 1)], norm_sq := 1, norm_factor := 1,
           warned := false } : CollapsedState ℝ)
      = [([false], (1 : ℝ))].map (fun p => (p.1, |p.2| ^ 2)) ∧
    ((measurement_probabilities
        ({ pairs := [([false], 1)], norm_sq := 1, norm_factor := 1,
           warned := false } : CollapsedState ℝ)).map Prod.snd).sum = 1 :=
  measurement_probabilities_sq_sum_one [([false], (1 : ℝ)), ([true], 0)]
    [some false] _ (collapse_unit_filtered _ _ [false] rfl)

/-- C9: the (label, coefficient) pairs a successful collapse returns keep the
original relative order of the joint state's bit strings: the collapsed label
sequence is an order-preserving sub-sequence of the input label sequence. -/
theorem collapse_labels_sublist (state : List (List Bool × ℝ))
    (measure : List (Option Bool)) (r : CollapsedState ℝ)
    (_hm : measuredIndices measure ≠ [])
    (h : collapse Real.sqrt state measure = .ok r) :
    (r.pairs.map Prod.fst).Sublist (state.map Prod.fst) := by
  by_cases hz : norm_sq (partial_pairs state measure) = 0
  · rw [collapse_eq_of_norm_sq_zero Real.sqrt state measure hz] at h
    exact absurd h (by simp)
  · rw [collapse_eq_of_norm_sq_ne_zero Real.sqrt state measure hz] at h
    obtain rfl := (Except.ok.inj h).symm
    simp only [List.map_map, Function.comp_def]
    exact (List.filter_sublist state).map Prod.fst

/-- C9 witness: collapsing [([0],0),([1],1)] on qubit 0 = "1". -/
theorem collapse_labels_sublist_witness :
    ((({ pairs := [([true], 1)], norm_sq := 1, norm_factor := 1,
         warned := false } : CollapsedState ℝ)).pairs.map Prod.fst).Sublist
      ([([false], (0 : ℝ)), ([true], 1)].map Prod.fst) :=
  collapse_labels_sublist [([false], (0 : ℝ)), ([true], 1)] [some true] _
    (by decide) (collapse_unit_filtered _ _ [true] rfl)

/-- C8: the concrete 2-qubit case [(1/√2, 1/√2), (1/√2, 1/√2)]:
`build_joint_state` yields labels "00","01","10","11" each with coefficient
0.5; collapsing on qubit 0 = "0" yields labels "00","01" each rescaled to
1/√2, with probabilities 0.5 and 0.5. -/
theorem plus_plus_concrete_case :
    build_joint_state [((1 / Real.sqrt 2 : ℝ), 1 / Real.sqrt 2),
        (1 / Real.sqrt 2, 1 / Real.sqrt 2)]
      = [([false, false], 1 / 2), ([false, true], 1 / 2),
         ([true, false], 1 / 2), ([true, true], 1 / 2)] ∧
    (collapse Real.sqrt
        (build_joint_state [((1 / Real.sqrt 2 : ℝ), 1 / Real.sqrt 2),
            (1 / Real.sqrt 2, 1 / Real.sqrt 2)])
        [some false, none]).map
        (fun r => (r.pairs, (measurement_probabilities r).map Prod.snd))
      = .ok ([([false, false], 1 / Real.sqrt 2), ([false, true], 1 / Real.sqrt 2)],
             [1 / 2, 1 / 2]) := by
  have hs2 : Real.sqrt 2 * Real.sqrt 2 = 2 :=
    Real.mul_self_sqrt (by norm_num)
  have hs0 : Real.sqrt 2 ≠ 0 := by positivity
  have hcoef : ((Real.sqrt 2)⁻¹ * (Real.sqrt 2)⁻¹ : ℝ) = 1 / 2 := by
    rw [← mul_inv, hs2]
    norm_num
  have hJ : build_joint_state [((1 / Real.sqrt 2 : ℝ), 1 / Real.sqrt 2),
      (1 / Real.sqrt 2, 1 / Real.sqrt 2)]
      = [([false, false], 1 / 2), ([false, true], 1 / 2),
         ([true, false], 1 / 2), ([true, true], 1 / 2)] := by
    have hb : bitStrings 2
        = [[false, false], [false, true], [true, false], [true, true]] := rfl
    simp only [build_joint_state, List.length_cons, List.length_nil, hb,
      List.map_cons, List.map_nil, basisCoeff, List.zip_cons_cons,
      List.zip_nil_right, List.prod_cons, List.prod_nil]
    norm_num [hcoef]
  refine ⟨hJ, ?_⟩
  rw [hJ]
  have hp : partial_pairs
      [([false, false], (1 / 2 : ℝ)), ([false, true], 1 / 2),
       ([true, false], 1 / 2), ([true, true], 1 / 2)] [some false, none]
      = [([false, false], (1 / 2 : ℝ)), ([false, true], 1 / 2)] := rfl
  have hns : norm_sq (partial_pairs
      [([false, false], (1 / 2 : ℝ)), ([false, true], 1 / 2),
       ([true, false], 1 / 2), ([true, true], 1 / 2)] [some false, none])
      = 1 / 2 := by
    rw [hp]
    simp only [norm_sq, List.map_cons, List.map_nil, List.sum_cons, List.sum_nil]
    rw [abs_of_nonneg (by norm_num : (0 : ℝ) ≤ 1 / 2)]
    norm_num
  rw [collapse_eq_of_norm_sq_ne_zero Real.sqrt _ _ (by rw [hns]; norm_num)]
  simp only [Except.map]
  rw [hns, hp]
  have h12 : (1 : ℝ) / (1 / 2) = 2 := by norm_num
  have hc : (1 / 2 : ℝ) * Real.sqrt 2 = 1 / Real.sqrt 2 := by
    rw [eq_div_iff hs0, mul_assoc, hs2]
    norm_num
  have hprob : |(1 / Real.sqrt 2 : ℝ)| ^ 2 = 1 / 2 := by
    rw [sq_abs, div_pow, one_pow, Real.sq_sqrt (by norm_num : (0 : ℝ) ≤ 2)]
  simp only [h12, List.map_cons, List.map_nil, hc, measurement_probabilities,
    hprob]

end QuantumCollapse
